import Mathlib

/-!
Shallow embedding of the core of the `jules-mpc` repository:

* the Job State Observer, `scripts/jules_monitor.py` (`monitor_once` and its
  helpers `is_question_message`, `messages_actionable`, `should_emit_stuck`,
  plus the surrounding main-loop exception wrapper), and
* the Durable Event Tailer, `jules-mpc-python/scripts/jules_event_watcher.py`
  (`watch`'s per-pass read loop and `load_state`).

Modelling conventions:

* Python strings are Lean `String`; character-level operations go through
  `String.toList` (`List Char`).  `str.lower` is modelled for ASCII.
* JSON payloads are modelled structurally: a status payload is its `status`
  field (`payload.get("status")`, absent = `none`) together with the opaque
  remaining fields; a messages payload is `next_cursor` and `messages`.
* `utc_now()` is modelled by one timestamp per monitoring cycle, given both
  as the stored string `nowStr` and as an instant `nowI : Int` (seconds);
  `datetime.fromisoformat` is an abstract `parseTime : String → Option Int`
  (`none` = `ValueError`), and `(now - last).total_seconds()` is `nowI - t`.
* `fetch_json` turns an `HTTPError` into a `RuntimeError` (caught inside
  `monitor_once`); every other exception escapes `monitor_once` and is caught
  by the main loop.  `FetchResult` keeps the two failure classes apart.
* Python truthiness on optional strings (`if status:`, `if cursor:`,
  `if not last_activity:`) is `none` or `some ""` being falsy.
-/

/-- A message record as consumed by `is_question_message`:
`role`, `tags` and `content` fields of the JSON message object
(`message.get("role", "")`, `message.get("tags", [])`,
`message.get("content", "")`). -/
structure Message where
  role : String
  tags : List String
  content : String
deriving DecidableEq

/-- A job-status payload returned by `fetch_json` on the status URL:
its `status` field (`status_payload.get("status")`, `none` when absent)
plus the remaining JSON fields, kept opaque as key/value pairs so that an
event "carrying the full status payload" can be stated. -/
structure StatusPayload where
  status : Option String
  extra : List (String × String)
deriving DecidableEq

/-- A messages payload returned by `fetch_json` on the messages URL:
`next_cursor` (`messages_payload.get("next_cursor")`) and `messages`
(`messages_payload.get("messages", [])`). -/
structure MessagesPayload where
  next_cursor : Option String
  messages : List Message
deriving DecidableEq

/-- Outcome of a `fetch_json` call.  `httpError` is a `urllib.error.HTTPError`
rewrapped by `fetch_json` into a `RuntimeError` (so it is caught by the
`except RuntimeError` clauses of `monitor_once`); `netError` is any other
exception (e.g. `urllib.error.URLError`, timeouts, JSON decode errors),
which `fetch_json` does not catch and which therefore escapes
`monitor_once`. -/
inductive FetchResult (α : Type) where
  | ok (payload : α)
  | httpError (msg : String)
  | netError (msg : String)
deriving DecidableEq

/-- `JobState` dataclass of `jules_monitor.py`. -/
structure JobState where
  cursor : Option String := none
  last_status : Option String := none
  last_activity : Option String := none
deriving DecidableEq

/-- Events appended to the events JSONL file, one constructor per
`append_jsonl` call site of `jules_monitor.py`:
status-fetch failure (`{"event": "error", job_id, observed_at, message}`),
terminal status (`{"event": kind, job_id, status, observed_at, payload}`
with `kind` the string `"completed"` or `"error"`), question, stuck, and
the job-less error appended by `main`'s exception handler. -/
inductive Event where
  | fetchError (job_id : String) (observed_at : String) (message : String)
  | terminal (kind : String) (job_id : String) (status : Option String)
      (observed_at : String) (payload : StatusPayload)
  | question (job_id : String) (observed_at : String) (message : Message)
  | stuck (job_id : String) (observed_at : String) (last_activity : Option String)
  | monitorError (observed_at : String) (message : String)
deriving DecidableEq

/-- The `job_id` field carried by an event (`none` for the job-less
`monitorError` events appended by `main`). -/
def Event.jobOf : Event → Option String
  | .fetchError j _ _ => some j
  | .terminal _ j _ _ _ => some j
  | .question j _ _ => some j
  | .stuck j _ _ => some j
  | .monitorError _ _ => none

/-- Whether an event is a `stuck` event. -/
def Event.isStuckEv : Event → Bool
  | .stuck _ _ _ => true
  | _ => false

/-- Whether an event is a `question` event. -/
def Event.isQuestionEv : Event → Bool
  | .question _ _ _ => true
  | _ => false

/-- Whether an event is a terminal (`completed`/`error`-with-status) event. -/
def Event.isTerminalEv : Event → Bool
  | .terminal _ _ _ _ _ => true
  | _ => false

/-- ASCII model of Python `str.lower` on a single character. -/
def lowerChar (c : Char) : Char :=
  if 'A' ≤ c && c ≤ 'Z' then Char.ofNat (c.toNat + 32) else c

/-- ASCII model of Python `str.lower`. -/
def lowerL (s : List Char) : List Char := s.map lowerChar

/-- Python `" ".join(parts)`. -/
def joinSpace : List (List Char) → List Char
  | [] => []
  | [t] => t
  | t :: ts => t ++ ' ' :: joinSpace ts

/-- Whether `pat` occurs at the start of `s` (used to define substring
occurrence, Python's `pat in s`). -/
def startsWithL : List Char → List Char → Bool
  | [], _ => true
  | _ :: _, [] => false
  | p :: ps, c :: cs => p = c && startsWithL ps cs

/-- Python substring test `pat in s`. -/
def occurs (pat : List Char) : List Char → Bool
  | [] => pat.isEmpty
  | c :: cs => startsWithL pat (c :: cs) || occurs pat cs

/-- `is_question_message` of `jules_monitor.py`: lowercased role, the tags
lowercased and joined with single spaces, lowercased content; a message is a
question iff `"question"` or `"needs_input"` occurs in the joined tags, or
`"?"` occurs in the content and the role is `"assistant"`. -/
def is_question_message (m : Message) : Bool :=
  let role := lowerL m.role.toList
  let tags := joinSpace (m.tags.map (fun t => lowerL t.toList))
  let text := lowerL m.content.toList
  occurs "question".toList tags || occurs "needs_input".toList tags ||
    (occurs "?".toList text && role = "assistant".toList)

/-- `messages_actionable` of `jules_monitor.py`: the first message in the
batch satisfying `is_question_message`, if any. -/
def messages_actionable (messages : List Message) : Option Message :=
  messages.find? is_question_message

/-- `should_emit_stuck` of `jules_monitor.py`.  `last_activity` falsy
(`None` or `""`) or unparseable (`ValueError` from `fromisoformat`) gives
`False`; otherwise the job is stuck iff
`(now - last).total_seconds() >= threshold_minutes * 60`. -/
def should_emit_stuck (parseTime : String → Option Int) (nowI : Int)
    (last_activity : Option String) (threshold_minutes : Int) : Bool :=
  match last_activity with
  | none => false
  | some s =>
    if s = "" then false
    else
      match parseTime s with
      | none => false
      | some t => threshold_minutes * 60 ≤ nowI - t

/-- `ACTIONABLE_STATUSES` of `jules_monitor.py`. -/
def ACTIONABLE_STATUSES : List String := ["COMPLETED", "FAILED", "ERROR", "CANCELLED"]

/-- `status in ACTIONABLE_STATUSES` (a `None`/absent status is in no set). -/
def isTerminalStatus : Option String → Bool
  | some s => ACTIONABLE_STATUSES.contains s
  | none => false

/-- The status-change tracking step of `monitor_once`
(`if status and status != job_state.last_status: ...`): when the fetched
status is truthy and differs from `last_status`, set `last_status` to it and
`last_activity` to now; otherwise leave the state unchanged. -/
def trackStatus (nowStr : String) (status : Option String) (st : JobState) : JobState :=
  match status with
  | none => st
  | some s =>
    if s ≠ "" ∧ some s ≠ st.last_status then
      { st with last_status := some s, last_activity := some nowStr }
    else st

/-- The two remote fetches `monitor_once` performs for one job, with their
outcomes (the remote API is an external collaborator, so a cycle's inputs
are the pre-applied oracle answers). -/
structure JobInput where
  statusResult : FetchResult StatusPayload
  messagesResult : FetchResult MessagesPayload
deriving DecidableEq

/-- Result of processing one job inside `monitor_once`: either the loop body
ran to its end / hit a `continue` (`done`, with the events appended for this
job and the job's updated state), or an uncaught exception escaped mid-body
(`aborted`, with the events and in-place state mutations made before the
raise, and the exception message). -/
inductive JobOutcome where
  | done (events : List Event) (st : JobState)
  | aborted (events : List Event) (st : JobState) (msg : String)
deriving DecidableEq

/-- The per-job body of `monitor_once` (lines 206-293 of
`jules_monitor.py`, after the `setdefault`): fetch status (a `RuntimeError`
emits an `error` event and continues, any other exception aborts the cycle),
track status changes, short-circuit on terminal status with a single
`completed`/`error` event, fetch messages (a `RuntimeError` degrades the
payload to `{}`), advance the cursor to a truthy `next_cursor`, emit a
`question` event for the first actionable message, otherwise run the stuck
check and reset `last_activity` after emitting `stuck`. -/
def processJob (parseTime : String → Option Int) (nowI : Int) (nowStr : String)
    (stuck_minutes : Int) (job_id : String) (inp : JobInput) (st : JobState) :
    JobOutcome :=
  match inp.statusResult with
  | .netError msg => .aborted [] st msg
  | .httpError msg => .done [.fetchError job_id nowStr msg] st
  | .ok payload =>
    let st1 := trackStatus nowStr payload.status st
    if isTerminalStatus payload.status then
      .done
        [.terminal (if payload.status = some "COMPLETED" then "completed" else "error")
          job_id payload.status nowStr payload] st1
    else
      match inp.messagesResult with
      | .netError msg => .aborted [] st1 msg
      | other =>
        let mp : MessagesPayload :=
          match other with
          | .ok p => p
          | _ => { next_cursor := none, messages := [] }
        let st2 : JobState :=
          match mp.next_cursor with
          | some c => if c ≠ "" then { st1 with cursor := some c } else st1
          | none => st1
        match messages_actionable mp.messages with
        | some msg =>
          .done [.question job_id nowStr msg] { st2 with last_activity := some nowStr }
        | none =>
          if should_emit_stuck parseTime nowI st2.last_activity stuck_minutes then
            .done [.stuck job_id nowStr st2.last_activity]
              { st2 with last_activity := some nowStr }
          else
            .done [] st2

/-- The Observer's persisted state: the Python dict `job_id → JobState`,
modelled as an association list in insertion order. -/
abbrev StateMap : Type := List (String × JobState)

/-- Dict lookup `state[job_id]`. -/
def lookupState (m : StateMap) (k : String) : Option JobState :=
  match m with
  | [] => none
  | (k', v) :: rest => if k' = k then some v else lookupState rest k

/-- The read half of `state.setdefault(job_id, JobState())`: the existing
entry, or a fresh default `JobState`. -/
def getOrDefault (m : StateMap) (k : String) : JobState :=
  (lookupState m k).getD {}

/-- The write half of `state.setdefault(job_id, JobState())`: insert a
fresh default entry at the end when the key is absent. -/
def ensureEntry (m : StateMap) (k : String) : StateMap :=
  match lookupState m k with
  | some _ => m
  | none => m ++ [(k, {})]

/-- In-place mutation of the dict entry for `k` (the Python code mutates the
`JobState` object stored in the dict). -/
def setState (m : StateMap) (k : String) (v : JobState) : StateMap :=
  match m with
  | [] => []
  | (k', v') :: rest => if k' = k then (k, v) :: rest else (k', v') :: setState rest k v

/-- One entry of the job list passed to `monitor_once`, paired with the
oracle answers its two fetches would get this cycle.  `job_id` is
`job.get("job_id")` (`none` when the key is absent). -/
structure CycleJobEntry where
  job_id : Option String
  inp : JobInput
deriving DecidableEq

/-- `monitor_once` of `jules_monitor.py`: iterate over the job list,
skipping entries with a falsy `job_id`; `setdefault` the job's state entry,
run the per-job body, write the mutated state back; a `done` outcome
proceeds to the next job, an `aborted` outcome rethrows: the remaining jobs
are not processed and the exception message is returned to the caller. -/
def monitorOnce (parseTime : String → Option Int) (nowI : Int) (nowStr : String)
    (stuck_minutes : Int) (jobs : List CycleJobEntry) (state : StateMap) :
    List Event × StateMap × Option String :=
  match jobs with
  | [] => ([], state, none)
  | j :: rest =>
    match j.job_id with
    | none => monitorOnce parseTime nowI nowStr stuck_minutes rest state
    | some jid =>
      if jid = "" then monitorOnce parseTime nowI nowStr stuck_minutes rest state
      else
        let st0 := getOrDefault state jid
        let state0 := ensureEntry state jid
        match processJob parseTime nowI nowStr stuck_minutes jid j.inp st0 with
        | .done evs st' =>
          let r := monitorOnce parseTime nowI nowStr stuck_minutes rest (setState state0 jid st')
          (evs ++ r.1, r.2)
        | .aborted evs st' msg => (evs, setState state0 jid st', some msg)

/-- One iteration of `main`'s `while True` loop around `monitor_once`: an
exception escaping `monitor_once` is caught by `except Exception` and
appended as a job-less `error` event (`"Monitor error: ..."`, `job_id`
`None`); the state (including the in-place mutations made before the
exception) is then persisted either way. -/
def runCycle (parseTime : String → Option Int) (nowI : Int) (nowStr : String)
    (stuck_minutes : Int) (jobs : List CycleJobEntry) (state : StateMap) :
    List Event × StateMap :=
  match monitorOnce parseTime nowI nowStr stuck_minutes jobs state with
  | (evs, st, none) => (evs, st)
  | (evs, st, some msg) =>
    (evs ++ [.monitorError nowStr ("Monitor error: " ++ msg)], st)

/-- The varying inputs of one monitoring cycle: the cycle's clock reading
(string and instant) and the job list with each entry's oracle answers. -/
structure CycleInput where
  nowI : Int
  nowStr : String
  jobs : List CycleJobEntry

/-- A run of consecutive monitoring cycles: the events appended across all
cycles, in order, and the final state. -/
def monitorTrace (parseTime : String → Option Int) (stuck_minutes : Int) :
    List CycleInput → StateMap → List Event × StateMap
  | [], st => ([], st)
  | ci :: cis, st =>
    let r := runCycle parseTime ci.nowI ci.nowStr stuck_minutes ci.jobs st
    let r' := monitorTrace parseTime stuck_minutes cis r.2
    (r.1 ++ r'.1, r'.2)

/-! ## Durable Event Tailer (`jules_event_watcher.py`)

The events file is modelled as a `List Char` (the log is ASCII JSONL, so
byte offsets coincide with character offsets).  `json.loads` is modelled by
a JSON syntax validator `jsonDecodes`: the Tailer only distinguishes lines
that decode from lines that raise `json.JSONDecodeError`. -/

/-- JSON insignificant whitespace. -/
def isJsonWs (c : Char) : Bool := c = ' ' || c = '\t' || c = '\n' || c = '\r'

/-- Skip JSON whitespace. -/
def skipJsonWs (s : List Char) : List Char := s.dropWhile isJsonWs

/-- ASCII digit. -/
def isDigitC (c : Char) : Bool := '0' ≤ c && c ≤ '9'

/-- ASCII hexadecimal digit. -/
def isHexC (c : Char) : Bool :=
  isDigitC c || ('a' ≤ c && c ≤ 'f') || ('A' ≤ c && c ≤ 'F')

/-- Consume a fixed literal keyword, returning the rest of the input. -/
def expectLit (lit : List Char) (s : List Char) : Option (List Char) :=
  if startsWithL lit s then some (s.drop lit.length) else none

/-- Consume the body of a JSON string after the opening quote (escape
sequences, no raw control characters), returning the rest after the closing
quote. -/
def parseStringBody : Nat → List Char → Option (List Char)
  | 0, _ => none
  | _, [] => none
  | fuel + 1, c :: rest =>
    if c = '"' then some rest
    else if c = '\\' then
      match rest with
      | [] => none
      | e :: rest' =>
        if e = '"' || e = '\\' || e = '/' || e = 'b' || e = 'f' || e = 'n' ||
            e = 'r' || e = 't' then
          parseStringBody fuel rest'
        else if e = 'u' then
          match rest' with
          | h1 :: h2 :: h3 :: h4 :: rest'' =>
            if isHexC h1 && isHexC h2 && isHexC h3 && isHexC h4 then
              parseStringBody fuel rest''
            else none
          | _ => none
        else none
    else if c.toNat < 32 then none
    else parseStringBody fuel rest

/-- Consume the optional exponent part of a JSON number. -/
def parseExpPart (s : List Char) : Option (List Char) :=
  match s with
  | [] => some []
  | c :: rest =>
    if c = 'e' || c = 'E' then
      let rest2 :=
        match rest with
        | c' :: r => if c' = '+' || c' = '-' then r else rest
        | [] => rest
      if (rest2.takeWhile isDigitC).isEmpty then none
      else some (rest2.dropWhile isDigitC)
    else some (c :: rest)

/-- Consume the optional fraction and exponent parts of a JSON number. -/
def parseFracPart (s : List Char) : Option (List Char) :=
  match s with
  | '.' :: rest =>
    if (rest.takeWhile isDigitC).isEmpty then none
    else parseExpPart (rest.dropWhile isDigitC)
  | _ => parseExpPart s

/-- Consume a JSON number after an optional leading minus sign. -/
def parseNumberBody (s : List Char) : Option (List Char) :=
  match s with
  | [] => none
  | c :: rest =>
    if c = '0' then parseFracPart rest
    else if '1' ≤ c && c ≤ '9' then parseFracPart (rest.dropWhile isDigitC)
    else none

mutual

/-- Consume one JSON value (object, array, string, number, `true`, `false`,
`null`, and the Python `json` extensions `NaN`, `Infinity`, `-Infinity`),
returning the unconsumed rest.  `fuel` bounds the recursion depth. -/
def parseValue : Nat → List Char → Option (List Char)
  | 0, _ => none
  | fuel + 1, s =>
    match s with
    | [] => none
    | c :: rest =>
      if c = '"' then parseStringBody fuel rest
      else if c = '\x7b' then parseObjectRest fuel rest
      else if c = '[' then parseArrayRest fuel rest
      else if c = 't' then expectLit "rue".toList rest
      else if c = 'f' then expectLit "alse".toList rest
      else if c = 'n' then expectLit "ull".toList rest
      else if c = 'N' then expectLit "aN".toList rest
      else if c = 'I' then expectLit "nfinity".toList rest
      else if c = '-' then
        match rest with
        | 'I' :: r2 => expectLit "nfinity".toList r2
        | _ => parseNumberBody rest
      else parseNumberBody (c :: rest)

/-- Consume the rest of a JSON object after the opening brace. -/
def parseObjectRest : Nat → List Char → Option (List Char)
  | 0, _ => none
  | fuel + 1, s =>
    match skipJsonWs s with
    | '\x7d' :: r => some r
    | s1 => parseMembers fuel s1

/-- Consume one or more `"key" : value` members followed by the closing
brace. -/
def parseMembers : Nat → List Char → Option (List Char)
  | 0, _ => none
  | fuel + 1, s =>
    match s with
    | '"' :: r =>
      match parseStringBody fuel r with
      | none => none
      | some r1 =>
        match skipJsonWs r1 with
        | ':' :: r2 =>
          match parseValue fuel (skipJsonWs r2) with
          | none => none
          | some r3 =>
            match skipJsonWs r3 with
            | ',' :: r4 => parseMembers fuel (skipJsonWs r4)
            | '\x7d' :: r4 => some r4
            | _ => none
        | _ => none
    | _ => none

/-- Consume the rest of a JSON array after the opening bracket. -/
def parseArrayRest : Nat → List Char → Option (List Char)
  | 0, _ => none
  | fuel + 1, s =>
    match skipJsonWs s with
    | ']' :: r => some r
    | s1 => parseElements fuel s1

/-- Consume one or more array elements followed by the closing bracket. -/
def parseElements : Nat → List Char → Option (List Char)
  | 0, _ => none
  | fuel + 1, s =>
    match parseValue fuel s with
    | none => none
    | some r =>
      match skipJsonWs r with
      | ',' :: r2 => parseElements fuel (skipJsonWs r2)
      | ']' :: r2 => some r2
      | _ => none

end

/-- Whether `json.loads` accepts `s`: a single JSON value surrounded only by
whitespace.  The fuel `3 * s.length + 8` dominates the recursion depth of
any input of this length. -/
def jsonDecodes (s : List Char) : Bool :=
  match parseValue (3 * s.length + 8) (skipJsonWs s) with
  | some rest => (skipJsonWs rest).isEmpty
  | none => false

/-- Python text-file line iteration (`for line in handle`) on the portion of
the file from the current position: pieces separated by a newline character,
the newline terminating each piece dropped (the Tailer strips each line
anyway), a final newline-less fragment yielded as a last piece. -/
def splitNl : List Char → List (List Char)
  | [] => []
  | c :: cs =>
    if c = '\n' then [] :: splitNl cs
    else
      match splitNl cs with
      | [] => [[c]]
      | l :: ls => (c :: l) :: ls

/-- Python `str.strip()` whitespace (ASCII). -/
def isPyWs (c : Char) : Bool :=
  c = ' ' || c = '\t' || c = '\n' || c = '\r' || c = '\x0b' || c = '\x0c'

/-- Python `line.strip()`. -/
def pyStrip (s : List Char) : List Char :=
  ((s.dropWhile isPyWs).reverse.dropWhile isPyWs).reverse

/-- The per-line body of `watch`'s read loop: strip the line, skip it when
empty, skip it when `json.loads` raises, otherwise the parsed event is
handed to `run_command`.  Returns the (stripped) lines delivered to the
handler, in order. -/
def deliveredLines (jsonOk : List Char → Bool) (lines : List (List Char)) :
    List (List Char) :=
  lines.filterMap fun raw =>
    let line := pyStrip raw
    if line.isEmpty then none
    else if jsonOk line then some line else none

/-- One pass of `watch`'s read loop over the events file `content` starting
at `offset`: `handle.seek(offset)`, iterate the remaining lines delivering
each decodable non-empty one, then `offset = handle.tell()` — the end of
the file (or the seek position, when it already lay past the end).  Returns
the delivered lines and the new persisted offset. -/
def watchPass (jsonOk : List Char → Bool) (content : List Char) (offset : Nat) :
    List (List Char) × Nat :=
  (deliveredLines jsonOk (splitNl (content.drop offset)), max offset content.length)

/-- `load_state` of `jules_event_watcher.py` combined with
`int(state.get("offset", 0))`: the persisted offset, or `0` when no state
file exists. -/
def load_state_offset (persisted : Option Nat) : Nat := persisted.getD 0

/-- The offset after running `watch`'s read pass over a sequence of
successive snapshots of the events file. -/
def watchRunOffset (jsonOk : List Char → Bool) :
    List (List Char) → Nat → Nat
  | [], o => o
  | c :: cs, o => watchRunOffset jsonOk cs (watchPass jsonOk c o).2

set_option maxRecDepth 40000

/-! ## Helper projections -/

/-- Events appended while processing one job. -/
def JobOutcome.eventsOf : JobOutcome → List Event
  | .done evs _ => evs
  | .aborted evs _ _ => evs

/-- The job's state after processing (including the in-place mutations made
before an abort). -/
def JobOutcome.stateOf : JobOutcome → JobState
  | .done _ st => st
  | .aborted _ st _ => st

/-! ## Claim C10 -/

/-- Claim C10: a job-list entry whose `job_id` is missing (`None`) or empty
is skipped by `monitor_once`: the cycle's result is as if the entry were not
in the list at all — in particular no fetch is performed for it (the result
does not depend on the entry's oracle answers), no event is emitted for it,
no `JobState` entry is created for it, and the state is unchanged with
respect to it. -/
theorem C10_falsy_job_id_skipped (parseTime : String → Option Int) (nowI : Int)
    (nowStr : String) (M : Int) (e : CycleJobEntry)
    (h : e.job_id = none ∨ e.job_id = some "") :
    ∀ (pre post : List CycleJobEntry) (state : StateMap),
      monitorOnce parseTime nowI nowStr M (pre ++ e :: post) state =
        monitorOnce parseTime nowI nowStr M (pre ++ post) state := by
  intro pre
  induction pre with
  | nil =>
    intro post state
    rcases h with h | h <;> simp [monitorOnce, h]
  | cons hd tl ih =>
    intro post state
    simp only [List.cons_append, monitorOnce]
    cases hhd : hd.job_id with
    | none => exact ih post state
    | some jid =>
      by_cases hj : jid = ""
      · simp only [hj, if_pos rfl]
        exact ih post state
      · simp only [if_neg hj]
        cases processJob parseTime nowI nowStr M jid hd.inp (getOrDefault state jid) with
        | done evs st' =>
          dsimp only
          simp only [List.append_eq]
          rw [ih]
        | aborted evs st' msg => rfl

/-- Witness for C10 at a concrete skipped entry. -/
theorem C10_witness :
    monitorOnce (fun _ => none) 0 "T" 20
      [⟨none, ⟨.ok ⟨some "COMPLETED", []⟩, .httpError "x"⟩⟩] [] =
      monitorOnce (fun _ => none) 0 "T" 20 [] [] :=
  C10_falsy_job_id_skipped (fun _ => none) 0 "T" 20
    ⟨none, ⟨.ok ⟨some "COMPLETED", []⟩, .httpError "x"⟩⟩ (Or.inl rfl) [] [] []

/-! ## Claim C2 -/

/-- Claim C2: when the status fetch succeeds with a terminal status
(`COMPLETED`, `FAILED`, `ERROR` or `CANCELLED`), the per-job cycle appends
exactly one event — kind `completed` when the status is `COMPLETED`,
`error` otherwise — carrying the full status payload; processing of the job
stops there: the result does not depend on the messages oracle `mr`, the
clock parser `parseTime` or the stuck threshold `M` (no message fetch, no
question classification, no stuck check), and the only state change is the
status-tracking step. -/
theorem C2_terminal_single_event (parseTime : String → Option Int) (nowI : Int)
    (nowStr : String) (M : Int) (jid : String) (p : StatusPayload)
    (mr : FetchResult MessagesPayload) (st : JobState) (s : String)
    (hs : p.status = some s) (hterm : s ∈ ACTIONABLE_STATUSES) :
    processJob parseTime nowI nowStr M jid ⟨.ok p, mr⟩ st =
      JobOutcome.done
        [Event.terminal (if s = "COMPLETED" then "completed" else "error")
          jid (some s) nowStr p]
        (trackStatus nowStr (some s) st) := by
  have hterm' : isTerminalStatus (some s) = true := by
    simpa [isTerminalStatus, List.contains, List.elem_iff] using hterm
  simp [processJob, hs, hterm']

/-- Witness for C2: a `RUNNING → COMPLETED` job emits exactly one
`completed` event with the full payload. -/
theorem C2_witness :
    processJob (fun _ => none) 0 "T1" 20 "J1"
      ⟨.ok ⟨some "COMPLETED", [("name", "demo")]⟩, .netError "unreachable"⟩
      ⟨none, some "RUNNING", some "T0"⟩ =
      JobOutcome.done
        [Event.terminal "completed" "J1" (some "COMPLETED") "T1"
          ⟨some "COMPLETED", [("name", "demo")]⟩]
        ⟨none, some "COMPLETED", some "T1"⟩ :=
  (C2_terminal_single_event (fun _ => none) 0 "T1" 20 "J1"
      ⟨some "COMPLETED", [("name", "demo")]⟩ (.netError "unreachable")
      ⟨none, some "RUNNING", some "T0"⟩ "COMPLETED" rfl (by decide)).trans
    (by decide)

/-! ## Claim C5 -/

/-- `stateOf` on a `done` outcome. -/
theorem stateOf_done (evs : List Event) (st : JobState) :
    (JobOutcome.done evs st).stateOf = st := rfl

/-- `stateOf` on an `aborted` outcome. -/
theorem stateOf_aborted (evs : List Event) (st : JobState) (msg : String) :
    (JobOutcome.aborted evs st msg).stateOf = st := rfl

/-- `eventsOf` on a `done` outcome. -/
theorem eventsOf_done (evs : List Event) (st : JobState) :
    (JobOutcome.done evs st).eventsOf = evs := rfl

/-- `eventsOf` on an `aborted` outcome. -/
theorem eventsOf_aborted (evs : List Event) (st : JobState) (msg : String) :
    (JobOutcome.aborted evs st msg).eventsOf = evs := rfl

/-- The cursor is untouched by the status-tracking step. -/
theorem trackStatus_cursor (nowStr : String) (status : Option String)
    (st : JobState) : (trackStatus nowStr status st).cursor = st.cursor := by
  cases status with
  | none => rfl
  | some s => simp only [trackStatus]; split <;> rfl

/-- Master characterization of the job's cursor after one cycle: it becomes
the returned continuation token exactly when the cycle is non-terminal, the
message fetch succeeded, and the token is truthy; on every other path it is
unchanged. -/
theorem processJob_cursor (parseTime : String → Option Int) (nowI : Int)
    (nowStr : String) (M : Int) (jid : String) (inp : JobInput) (st : JobState) :
    (processJob parseTime nowI nowStr M jid inp st).stateOf.cursor =
      (match inp.statusResult, inp.messagesResult with
       | .ok p, .ok mp =>
         if isTerminalStatus p.status then st.cursor
         else
           match mp.next_cursor with
           | some c => if c = "" then st.cursor else some c
           | none => st.cursor
       | _, _ => st.cursor) := by
  obtain ⟨sr, mr⟩ := inp
  cases sr with
  | netError m => simp [processJob, stateOf_aborted]
  | httpError m => simp [processJob, stateOf_done]
  | ok p =>
    by_cases ht : isTerminalStatus p.status
    · cases mr <;> simp [processJob, ht, stateOf_done, trackStatus_cursor]
    · cases mr with
      | netError m => simp [processJob, ht, stateOf_aborted, trackStatus_cursor]
      | httpError m =>
        cases hm : messages_actionable ([] : List Message) with
        | some m' => simp [messages_actionable] at hm
        | none =>
          simp [processJob, ht, hm, stateOf_done, apply_ite JobOutcome.stateOf,
            apply_ite JobState.cursor, trackStatus_cursor]
      | ok mp =>
        cases hc : mp.next_cursor with
        | none =>
          cases hm : messages_actionable mp.messages <;>
            simp [processJob, ht, hc, hm, stateOf_done,
              apply_ite JobOutcome.stateOf, apply_ite JobState.cursor,
              trackStatus_cursor]
        | some c =>
          by_cases hce : c = "" <;>
            cases hm : messages_actionable mp.messages <;>
              simp [processJob, ht, hc, hm, hce, stateOf_done,
                apply_ite JobOutcome.stateOf, apply_ite JobState.cursor,
                trackStatus_cursor]

/-- Counterexample to claim C5 as stated: in a non-terminal cycle whose
message fetch succeeds and returns the continuation token `""`, the cursor
is NOT set to that returned token (the assignment is guarded by Python
truthiness, `if cursor:`): it keeps its previous value `"p1"`. -/
theorem C5_counterexample :
    (processJob (fun _ => none) 0 "T" 20 "J1"
        ⟨.ok ⟨some "RUNNING", []⟩, .ok ⟨some "", []⟩⟩
        ⟨some "p1", some "RUNNING", none⟩).stateOf.cursor = some "p1" ∧
      (some "p1" : Option String) ≠ some "" := by decide

/-- Claim C5 amended: in a non-terminal cycle whose message fetch succeeds,
the cursor is set to the batch's continuation token whenever a non-empty one
is returned, whether or not a question message was found; it is unchanged
when the returned token is absent or empty, or when the message fetch fails
with an HTTP error; and on every path the cursor is never set back to
`None`: a `None` cursor after the cycle means the cursor was already
`None`. -/
theorem C5_cursor_amended (parseTime : String → Option Int) (nowI : Int)
    (nowStr : String) (M : Int) (jid : String) :
    (∀ (p : StatusPayload) (mp : MessagesPayload) (st : JobState) (c : String),
      isTerminalStatus p.status = false → mp.next_cursor = some c → c ≠ "" →
      (processJob parseTime nowI nowStr M jid ⟨.ok p, .ok mp⟩ st).stateOf.cursor
        = some c) ∧
    (∀ (p : StatusPayload) (mp : MessagesPayload) (st : JobState),
      isTerminalStatus p.status = false →
      (mp.next_cursor = none ∨ mp.next_cursor = some "") →
      (processJob parseTime nowI nowStr M jid ⟨.ok p, .ok mp⟩ st).stateOf.cursor
        = st.cursor) ∧
    (∀ (p : StatusPayload) (msg : String) (st : JobState),
      isTerminalStatus p.status = false →
      (processJob parseTime nowI nowStr M jid ⟨.ok p, .httpError msg⟩ st).stateOf.cursor
        = st.cursor) ∧
    (∀ (inp : JobInput) (st : JobState),
      (processJob parseTime nowI nowStr M jid inp st).stateOf.cursor = none →
      st.cursor = none) := by
  refine ⟨?_, ?_, ?_, ?_⟩
  · intro p mp st c hterm hc hne
    rw [processJob_cursor]
    simp [hterm, hc, hne]
  · intro p mp st hterm hc
    rw [processJob_cursor]
    rcases hc with hc | hc <;> simp [hterm, hc]
  · intro p msg st hterm
    rw [processJob_cursor]
  · intro inp st h
    rw [processJob_cursor] at h
    obtain ⟨sr, mr⟩ := inp
    cases sr with
    | netError m => exact h
    | httpError m => exact h
    | ok p =>
      cases mr with
      | netError m => exact h
      | httpError m => exact h
      | ok mp =>
        by_cases ht : isTerminalStatus p.status
        · simpa [ht] using h
        · simp only [ht] at h
          cases hc : mp.next_cursor with
          | none => simpa [hc] using h
          | some c =>
            rw [hc] at h
            by_cases hce : c = ""
            · simpa [hce] using h
            · simp [hce] at h

/-- Witness for the amended C5 at a concrete input: a returned non-empty
token `"c2"` replaces the previous cursor `"c1"` even though no question
was found in the batch. -/
theorem C5_witness :
    (processJob (fun _ => none) 0 "T" 20 "J1"
        ⟨.ok ⟨some "RUNNING", []⟩, .ok ⟨some "c2", []⟩⟩
        ⟨some "c1", some "RUNNING", none⟩).stateOf.cursor = some "c2" :=
  (C5_cursor_amended (fun _ => none) 0 "T" 20 "J1").1
    ⟨some "RUNNING", []⟩ ⟨some "c2", []⟩ ⟨some "c1", some "RUNNING", none⟩ "c2"
    (by decide) rfl (by decide)

/-! ## Claim C8 -/

/-- After a cycle whose status fetch succeeded, the job's `last_status` is
exactly what the status-tracking step made it: no later step of the cycle
touches `last_status`.  When the status fetch failed it is unchanged. -/
theorem processJob_last_status (parseTime : String → Option Int) (nowI : Int)
    (nowStr : String) (M : Int) (jid : String) (inp : JobInput) (st : JobState) :
    (processJob parseTime nowI nowStr M jid inp st).stateOf.last_status =
      (match inp.statusResult with
       | .ok p => (trackStatus nowStr p.status st).last_status
       | _ => st.last_status) := by
  obtain ⟨sr, mr⟩ := inp
  cases sr with
  | netError m => simp [processJob, stateOf_aborted]
  | httpError m => simp [processJob, stateOf_done]
  | ok p =>
    by_cases ht : isTerminalStatus p.status
    · cases mr <;> simp [processJob, ht, stateOf_done]
    · cases mr with
      | netError m => simp [processJob, ht, stateOf_aborted]
      | httpError m =>
        cases hm : messages_actionable ([] : List Message) with
        | some m' => simp [messages_actionable] at hm
        | none =>
          simp [processJob, ht, hm, stateOf_done, apply_ite JobOutcome.stateOf,
            apply_ite JobState.last_status]
      | ok mp =>
        cases hc : mp.next_cursor with
        | none =>
          cases hm : messages_actionable mp.messages <;>
            simp [processJob, ht, hc, hm, stateOf_done,
              apply_ite JobOutcome.stateOf, apply_ite JobState.last_status]
        | some c =>
          by_cases hce : c = "" <;>
            cases hm : messages_actionable mp.messages <;>
              simp [processJob, ht, hc, hm, hce, stateOf_done,
                apply_ite JobOutcome.stateOf, apply_ite JobState.last_status]

/-- Counterexample to claim C8 as stated: a successful status fetch whose
payload carries the status `""` — which differs from the stored
`last_status` `"RUNNING"` — does NOT update `last_status` (the update is
guarded by Python truthiness, `if status and ...`): the state keeps
`"RUNNING"`. -/
theorem C8_counterexample :
    (processJob (fun _ => none) 0 "T" 20 "J1"
        ⟨.ok ⟨some "", []⟩, .ok ⟨none, []⟩⟩
        ⟨none, some "RUNNING", none⟩).stateOf.last_status = some "RUNNING" ∧
      (some "RUNNING" : Option String) ≠ some "" := by decide

/-- Claim C8 amended: in a cycle whose status fetch succeeds, if the
fetched status is present, non-empty and differs from the stored
`last_status`, the tracking step sets `last_status` to it and
`last_activity` to now; if it equals `last_status`, or is absent or the
empty string, the tracking step leaves the whole state unchanged; and the
job's `last_status` after the entire cycle is precisely the tracking
step's result. -/
theorem C8_status_tracking_amended (nowStr : String) :
    (∀ (s : String) (st : JobState), s ≠ "" → some s ≠ st.last_status →
      trackStatus nowStr (some s) st =
        { st with last_status := some s, last_activity := some nowStr }) ∧
    (∀ (s : String) (st : JobState), some s = st.last_status ∨ s = "" →
      trackStatus nowStr (some s) st = st) ∧
    (∀ st : JobState, trackStatus nowStr none st = st) ∧
    (∀ (parseTime : String → Option Int) (nowI M : Int) (jid : String)
        (p : StatusPayload) (mr : FetchResult MessagesPayload) (st : JobState),
      (processJob parseTime nowI nowStr M jid ⟨.ok p, mr⟩ st).stateOf.last_status =
        (trackStatus nowStr p.status st).last_status) := by
  refine ⟨?_, ?_, fun _ => rfl, ?_⟩
  · intro s st hne hdiff
    simp [trackStatus, hne, hdiff]
  · intro s st h
    rcases h with h | h <;> simp [trackStatus, h]
  · intro parseTime nowI M jid p mr st
    rw [processJob_last_status]

/-- Witness for the amended C8 at a concrete input: status `"COMPLETED"`
arriving over `last_status` `"RUNNING"` updates both fields. -/
theorem C8_witness :
    trackStatus "T1" (some "COMPLETED") ⟨none, some "RUNNING", some "T0"⟩ =
      ⟨none, some "COMPLETED", some "T1"⟩ :=
  ((C8_status_tracking_amended "T1").1 "COMPLETED"
      ⟨none, some "RUNNING", some "T0"⟩ (by decide) (by decide)).trans (by decide)

/-! ## Claim C6 -/

/-- A space-free pattern matching at the start of `a ++ ' ' :: b` cannot
reach past the separator: the match is equivalent to matching at the start
of `a`. -/
theorem startsWithL_append_sep (pat : List Char) (hsp : ' ' ∉ pat) :
    ∀ a b : List Char, startsWithL pat (a ++ ' ' :: b) = startsWithL pat a := by
  induction pat with
  | nil => intro a b; rfl
  | cons p ps ih =>
    intro a b
    cases a with
    | nil =>
      have hp : p ≠ ' ' := fun h => hsp (h ▸ List.mem_cons_self p ps)
      simp [startsWithL, hp]
    | cons c a' =>
      simp only [List.cons_append, startsWithL, List.append_eq]
      rw [ih (fun h => hsp (List.mem_cons_of_mem p h)) a' b]

/-- A nonempty, space-free pattern occurs in `a ++ ' ' :: b` iff it occurs
in `a` or in `b`: a substring match cannot straddle the separator. -/
theorem occurs_append_sep (pat : List Char) (hne : pat ≠ []) (hsp : ' ' ∉ pat) :
    ∀ a b : List Char, occurs pat (a ++ ' ' :: b) = (occurs pat a || occurs pat b) := by
  intro a
  induction a with
  | nil =>
    intro b
    obtain ⟨p, ps, rfl⟩ : ∃ p ps, pat = p :: ps := by
      cases pat with
      | nil => exact absurd rfl hne
      | cons p ps => exact ⟨p, ps, rfl⟩
    have hp : p ≠ ' ' := fun h => hsp (h ▸ List.mem_cons_self p ps)
    simp [occurs, startsWithL, hp, List.isEmpty]
  | cons c a' ih =>
    intro b
    simp only [List.cons_append, occurs, List.append_eq]
    rw [show c :: (a' ++ ' ' :: b) = (c :: a') ++ ' ' :: b from rfl,
      startsWithL_append_sep pat hsp (c :: a') b, ih b, Bool.or_assoc]

/-- A nonempty, space-free pattern occurs in a space-join of parts iff it
occurs in one of the parts. -/
theorem occurs_joinSpace (pat : List Char) (hne : pat ≠ []) (hsp : ' ' ∉ pat) :
    ∀ ts : List (List Char),
      occurs pat (joinSpace ts) = ts.any (fun t => occurs pat t) := by
  intro ts
  induction ts with
  | nil =>
    simp [joinSpace, occurs, List.isEmpty_iff, hne]
  | cons t ts ih =>
    cases ts with
    | nil => simp [joinSpace]
    | cons t' ts' =>
      rw [show joinSpace (t :: t' :: ts') = t ++ ' ' :: joinSpace (t' :: ts') from rfl,
        occurs_append_sep pat hne hsp, ih]
      simp

/-- Claim C6: (1) the question predicate holds iff some tag contains (as a
case-insensitive substring) the `question` marker or the `needs_input`
marker (the spec's "needs-input" marker is the tag text `needs_input`), or
the content contains the interrogative marker `?` and the lowercased author
role is `assistant`; (2) in a non-terminal cycle whose message fetch
succeeds, the Observer emits a `question` event carrying exactly the first
message of the batch satisfying the predicate; (3) `messages_actionable`
returns `some m` precisely when `m` satisfies the predicate and every
message before it in the batch does not. -/
theorem C6_question_predicate :
    (∀ m : Message, is_question_message m = true ↔
      ((∃ t ∈ m.tags, occurs "question".toList (lowerL t.toList) = true) ∨
       (∃ t ∈ m.tags, occurs "needs_input".toList (lowerL t.toList) = true) ∨
       (occurs "?".toList (lowerL m.content.toList) = true ∧
         lowerL m.role.toList = "assistant".toList))) ∧
    (∀ (parseTime : String → Option Int) (nowI : Int) (nowStr : String)
        (M : Int) (jid : String) (p : StatusPayload) (mp : MessagesPayload)
        (st : JobState) (m : Message),
      isTerminalStatus p.status = false →
      messages_actionable mp.messages = some m →
      (processJob parseTime nowI nowStr M jid ⟨.ok p, .ok mp⟩ st).eventsOf =
        [Event.question jid nowStr m]) ∧
    (∀ (ms : List Message) (m : Message),
      messages_actionable ms = some m ↔
        (is_question_message m = true ∧ ∃ pre post, ms = pre ++ m :: post ∧
          ∀ x ∈ pre, is_question_message x = false)) := by
  refine ⟨?_, ?_, ?_⟩
  · intro m
    simp only [is_question_message]
    rw [occurs_joinSpace _ (by decide) (by decide),
      occurs_joinSpace _ (by decide) (by decide)]
    simp [List.any_map, List.any_eq_true, Function.comp, or_assoc]
  · intro parseTime nowI nowStr M jid p mp st m ht hm
    cases hc : mp.next_cursor with
    | none => simp [processJob, ht, hc, hm, eventsOf_done]
    | some c =>
      by_cases hce : c = "" <;> simp [processJob, ht, hc, hce, hm, eventsOf_done]
  · intro ms m
    rw [messages_actionable, List.find?_eq_some]
    simp [Bool.not_eq_true']

/-- Witness for C6: a concrete cycle whose batch's first (and only) message
has a `?` in its content and role `assistant` emits the `question` event
with that message. -/
theorem C6_witness :
    (processJob (fun _ => none) 0 "T" 20 "J1"
        ⟨.ok ⟨some "RUNNING", []⟩,
          .ok ⟨none, [⟨"assistant", [], "Which branch should I use?"⟩]⟩⟩
        ⟨none, none, none⟩).eventsOf =
      [Event.question "J1" "T" ⟨"assistant", [], "Which branch should I use?"⟩] :=
  C6_question_predicate.2.1 (fun _ => none) 0 "T" 20 "J1"
    ⟨some "RUNNING", []⟩ ⟨none, [⟨"assistant", [], "Which branch should I use?"⟩]⟩
    ⟨none, none, none⟩ ⟨"assistant", [], "Which branch should I use?"⟩
    (by decide) (by decide)

/-! ## Claim C3 -/

/-- Writing back the value an entry already holds leaves the map
unchanged. -/
theorem setState_lookup_self (m : StateMap) (k : String) (v : JobState)
    (h : lookupState m k = some v) : setState m k v = m := by
  induction m with
  | nil => simp [lookupState] at h
  | cons hd tl ih =>
    obtain ⟨k', v'⟩ := hd
    by_cases hk : k' = k
    · subst hk
      have hv : v' = v := by simpa [lookupState] using h
      subst hv
      simp [setState]
    · simp only [lookupState, if_neg hk] at h
      simp [setState, hk, ih h]

/-- A key absent from `m` is looked up in the appended tail. -/
theorem lookupState_append_right (m l : StateMap) (k : String)
    (h : lookupState m k = none) :
    lookupState (m ++ l) k = lookupState l k := by
  induction m with
  | nil => rfl
  | cons hd tl ih =>
    obtain ⟨k', v'⟩ := hd
    by_cases hk : k' = k
    · simp [lookupState, hk] at h
    · simp only [lookupState, if_neg hk] at h
      simpa [lookupState, hk] using ih h

/-- After `setdefault`, the entry holds the `setdefault` result. -/
theorem lookupState_ensureEntry (m : StateMap) (k : String) :
    lookupState (ensureEntry m k) k = some (getOrDefault m k) := by
  unfold ensureEntry getOrDefault
  cases h : lookupState m k with
  | some v => simp [h]
  | none => simp [h, lookupState_append_right m _ k h, lookupState]

/-- Writing back the unmodified `setdefault` result is a no-op on top of
`setdefault` itself. -/
theorem setState_ensureEntry_self (m : StateMap) (k : String) :
    setState (ensureEntry m k) k (getOrDefault m k) = ensureEntry m k :=
  setState_lookup_self _ _ _ (lookupState_ensureEntry m k)

/-- Counterexample to claim C3 as stated: job `J1`'s status fetch fails with
a network-level error (one that `fetch_json` does not convert to
`RuntimeError`); the cycle emits NO `error` event carrying `J1`'s id — the
only event is the job-less `monitorError` appended by `main`'s handler —
and job `J2`, although terminal (which would emit a `completed` event), is
not processed at all in this cycle. -/
theorem C3_counterexample :
    runCycle (fun _ => none) 0 "T" 20
        [⟨some "J1", ⟨.netError "connection refused", .ok ⟨none, []⟩⟩⟩,
          ⟨some "J2", ⟨.ok ⟨some "COMPLETED", []⟩, .ok ⟨none, []⟩⟩⟩] [] =
      ([Event.monitorError "T" "Monitor error: connection refused"],
        [("J1", ⟨none, none, none⟩)]) ∧
      (Event.monitorError "T" "Monitor error: connection refused").jobOf ≠
        some "J1" ∧
      (Event.monitorError "T" "Monitor error: connection refused").jobOf ≠
        some "J2" := by decide

/-- Claim C3 amended: when a job's status fetch fails with an HTTP/API
error — which `fetch_json` surfaces as a `RuntimeError` — the Observer
emits one `error` event carrying the failure message, leaves the job's
`cursor`, `last_status` and `last_activity` unchanged, and proceeds to the
next job of the same cycle.  When the status fetch fails with any other
(network-level) exception, `monitor_once` aborts: no per-job error event is
appended, the remaining jobs of the cycle are not processed, and the main
loop appends a job-less `error` event carrying the failure message. -/
theorem C3_fetch_failure_amended (parseTime : String → Option Int) (nowI : Int)
    (nowStr : String) (M : Int) :
    (∀ (jid msg : String) (mr : FetchResult MessagesPayload) (st : JobState),
      processJob parseTime nowI nowStr M jid ⟨.httpError msg, mr⟩ st =
        JobOutcome.done [Event.fetchError jid nowStr msg] st) ∧
    (∀ (jid msg : String) (mr : FetchResult MessagesPayload)
        (rest : List CycleJobEntry) (state : StateMap), jid ≠ "" →
      monitorOnce parseTime nowI nowStr M
          (⟨some jid, ⟨.httpError msg, mr⟩⟩ :: rest) state =
        (Event.fetchError jid nowStr msg ::
            (monitorOnce parseTime nowI nowStr M rest (ensureEntry state jid)).1,
          (monitorOnce parseTime nowI nowStr M rest (ensureEntry state jid)).2)) ∧
    (∀ (jid msg : String) (mr : FetchResult MessagesPayload)
        (rest : List CycleJobEntry) (state : StateMap), jid ≠ "" →
      monitorOnce parseTime nowI nowStr M
          (⟨some jid, ⟨.netError msg, mr⟩⟩ :: rest) state =
        ([], ensureEntry state jid, some msg)) ∧
    (∀ (jobs : List CycleJobEntry) (state : StateMap) (msg : String)
        (evs : List Event) (st' : StateMap),
      monitorOnce parseTime nowI nowStr M jobs state = (evs, st', some msg) →
      runCycle parseTime nowI nowStr M jobs state =
        (evs ++ [Event.monitorError nowStr ("Monitor error: " ++ msg)], st')) := by
  refine ⟨?_, ?_, ?_, ?_⟩
  · intro jid msg mr st
    rfl
  · intro jid msg mr rest state hjid
    simp [monitorOnce, hjid, processJob, setState_ensureEntry_self]
  · intro jid msg mr rest state hjid
    simp [monitorOnce, hjid, processJob, setState_ensureEntry_self]
  · intro jobs state msg evs st' h
    simp [runCycle, h]

/-- Witness for the amended C3: an HTTP 500 on the only job's status fetch
yields exactly the per-job `error` event and an untouched (freshly
defaulted) state entry. -/
theorem C3_witness :
    monitorOnce (fun _ => none) 0 "T" 20
        [⟨some "J1", ⟨.httpError "HTTP 500 for url: boom", .ok ⟨none, []⟩⟩⟩] [] =
      ([Event.fetchError "J1" "T" "HTTP 500 for url: boom"],
        [("J1", ⟨none, none, none⟩)], none) :=
  ((C3_fetch_failure_amended (fun _ => none) 0 "T" 20).2.1 "J1"
      "HTTP 500 for url: boom" (.ok ⟨none, []⟩) [] [] (by decide)).trans (by decide)

/-! ## Claim C4 -/

/-- The `last_activity` after the status-tracking step is either unchanged
or freshly set to now. -/
theorem trackStatus_last_activity_cases (nowStr : String) (status : Option String)
    (st : JobState) :
    (trackStatus nowStr status st).last_activity = st.last_activity ∨
      (trackStatus nowStr status st).last_activity = some nowStr := by
  cases status with
  | none => exact Or.inl rfl
  | some s =>
    simp only [trackStatus]
    split
    · exact Or.inr rfl
    · exact Or.inl rfl

/-- Master characterization of the events appended for one job in one
cycle, by case on the two fetch outcomes. -/
theorem processJob_events (parseTime : String → Option Int) (nowI : Int)
    (nowStr : String) (M : Int) (jid : String) (inp : JobInput) (st : JobState) :
    (processJob parseTime nowI nowStr M jid inp st).eventsOf =
      (match inp.statusResult, inp.messagesResult with
       | .netError _, _ => []
       | .httpError msg, _ => [Event.fetchError jid nowStr msg]
       | .ok p, mres =>
         if isTerminalStatus p.status then
           [Event.terminal (if p.status = some "COMPLETED" then "completed" else "error")
             jid p.status nowStr p]
         else
           match mres with
           | .netError _ => []
           | .httpError _ =>
             if should_emit_stuck parseTime nowI
                 (trackStatus nowStr p.status st).last_activity M then
               [Event.stuck jid nowStr (trackStatus nowStr p.status st).last_activity]
             else []
           | .ok mp =>
             match messages_actionable mp.messages with
             | some m => [Event.question jid nowStr m]
             | none =>
               if should_emit_stuck parseTime nowI
                   (trackStatus nowStr p.status st).last_activity M then
                 [Event.stuck jid nowStr (trackStatus nowStr p.status st).last_activity]
               else []) := by
  obtain ⟨sr, mr⟩ := inp
  cases sr with
  | netError m => simp [processJob, eventsOf_aborted]
  | httpError m => simp [processJob, eventsOf_done]
  | ok p =>
    by_cases ht : isTerminalStatus p.status
    · cases mr <;> simp [processJob, ht, eventsOf_done]
    · cases mr with
      | netError m => simp [processJob, ht, eventsOf_aborted]
      | httpError m =>
        cases hm : messages_actionable ([] : List Message) with
        | some m' => simp [messages_actionable] at hm
        | none =>
          simp [processJob, ht, hm, eventsOf_done, apply_ite JobOutcome.eventsOf]
      | ok mp =>
        cases hc : mp.next_cursor with
        | none =>
          cases hm : messages_actionable mp.messages <;>
            simp [processJob, ht, hc, hm, eventsOf_done,
              apply_ite JobOutcome.eventsOf]
        | some c =>
          by_cases hce : c = "" <;>
            cases hm : messages_actionable mp.messages <;>
              simp [processJob, ht, hc, hm, hce, eventsOf_done,
                apply_ite JobOutcome.eventsOf]

/-- Master characterization of the job's `last_activity` after one cycle. -/
theorem processJob_last_activity (parseTime : String → Option Int) (nowI : Int)
    (nowStr : String) (M : Int) (jid : String) (inp : JobInput) (st : JobState) :
    (processJob parseTime nowI nowStr M jid inp st).stateOf.last_activity =
      (match inp.statusResult, inp.messagesResult with
       | .netError _, _ => st.last_activity
       | .httpError _, _ => st.last_activity
       | .ok p, mres =>
         if isTerminalStatus p.status then
           (trackStatus nowStr p.status st).last_activity
         else
           match mres with
           | .netError _ => (trackStatus nowStr p.status st).last_activity
           | .httpError _ =>
             if should_emit_stuck parseTime nowI
                 (trackStatus nowStr p.status st).last_activity M then
               some nowStr
             else (trackStatus nowStr p.status st).last_activity
           | .ok mp =>
             match messages_actionable mp.messages with
             | some _ => some nowStr
             | none =>
               if should_emit_stuck parseTime nowI
                   (trackStatus nowStr p.status st).last_activity M then
                 some nowStr
               else (trackStatus nowStr p.status st).last_activity) := by
  obtain ⟨sr, mr⟩ := inp
  cases sr with
  | netError m => simp [processJob, stateOf_aborted]
  | httpError m => simp [processJob, stateOf_done]
  | ok p =>
    by_cases ht : isTerminalStatus p.status
    · cases mr <;> simp [processJob, ht, stateOf_done]
    · cases mr with
      | netError m => simp [processJob, ht, stateOf_aborted]
      | httpError m =>
        cases hm : messages_actionable ([] : List Message) with
        | some m' => simp [messages_actionable] at hm
        | none =>
          simp [processJob, ht, hm, stateOf_done, apply_ite JobOutcome.stateOf,
            apply_ite JobState.last_activity]
      | ok mp =>
        cases hc : mp.next_cursor with
        | none =>
          cases hm : messages_actionable mp.messages <;>
            simp [processJob, ht, hc, hm, stateOf_done,
              apply_ite JobOutcome.stateOf, apply_ite JobState.last_activity]
        | some c =>
          by_cases hce : c = "" <;>
            cases hm : messages_actionable mp.messages <;>
              simp [processJob, ht, hc, hm, hce, stateOf_done,
                apply_ite JobOutcome.stateOf, apply_ite JobState.last_activity]

/-- A positive threshold in minutes is positive in seconds. -/
theorem stuck_threshold_pos (M : Int) (h : 0 < M) : ¬ M * 60 ≤ (0 : Int) :=
  not_le.mpr (by positivity)

/-- Claim C4: stuck detection is debounced. (1) When a `stuck` event is
emitted for a job in a cycle, it is the only event for that job in that
cycle (in particular, no terminal or question event was emitted), the
checked `last_activity` passed the `now − last ≥ M·60 s` test, and
`last_activity` is reset to now.  (2) With a positive threshold and a clock
whose current reading parses back to the current instant, a `stuck` event
emitted over an entering `last_activity = T0` requires `now − T0 ≥ M·60 s`.
(3) After the reset, a second cycle whose instant is less than `M·60 s`
after the reset point emits no `stuck` event for the job, whatever its
fetches return. -/
theorem C4_stuck_debounced (parseTime : String → Option Int) (M : Int)
    (jid : String) :
    (∀ (nowI : Int) (nowStr : String) (inp : JobInput) (st : JobState),
      (∃ e ∈ (processJob parseTime nowI nowStr M jid inp st).eventsOf,
        e.isStuckEv = true) →
      ∃ la, (processJob parseTime nowI nowStr M jid inp st).eventsOf =
            [Event.stuck jid nowStr la] ∧
        should_emit_stuck parseTime nowI la M = true ∧
        (processJob parseTime nowI nowStr M jid inp st).stateOf.last_activity =
          some nowStr) ∧
    (∀ (nowI : Int) (nowStr : String) (inp : JobInput) (st : JobState)
        (t0s : String) (T0 : Int), 0 < M →
      st.last_activity = some t0s → parseTime t0s = some T0 →
      parseTime nowStr = some nowI →
      (∃ e ∈ (processJob parseTime nowI nowStr M jid inp st).eventsOf,
        e.isStuckEv = true) →
      M * 60 ≤ nowI - T0) ∧
    (∀ (now1I now2I : Int) (now1Str now2Str : String) (inp2 : JobInput)
        (st' : JobState), 0 < M →
      st'.last_activity = some now1Str →
      parseTime now1Str = some now1I → parseTime now2Str = some now2I →
      now2I - now1I < M * 60 →
      ∀ e ∈ (processJob parseTime now2I now2Str M jid inp2 st').eventsOf,
        e.isStuckEv = false) := by
  have key : ∀ (nowI : Int) (nowStr : String) (inp : JobInput) (st : JobState),
      (∃ e ∈ (processJob parseTime nowI nowStr M jid inp st).eventsOf,
        e.isStuckEv = true) →
      (processJob parseTime nowI nowStr M jid inp st).eventsOf =
          [Event.stuck jid nowStr (trackStatus nowStr
            (match inp.statusResult with
             | .ok p => p.status
             | _ => none) st).last_activity] ∧
        should_emit_stuck parseTime nowI (trackStatus nowStr
            (match inp.statusResult with
             | .ok p => p.status
             | _ => none) st).last_activity M = true ∧
        (processJob parseTime nowI nowStr M jid inp st).stateOf.last_activity =
          some nowStr := by
    intro nowI nowStr inp st hex
    obtain ⟨e, he, hstk⟩ := hex
    rw [processJob_events] at he
    rw [processJob_events, processJob_last_activity]
    obtain ⟨sr, mr⟩ := inp
    cases sr with
    | netError m => simp at he
    | httpError m =>
      simp at he
      subst he
      simp [Event.isStuckEv] at hstk
    | ok p =>
      by_cases ht : isTerminalStatus p.status
      · simp [ht] at he
        subst he
        simp [Event.isStuckEv] at hstk
      · cases mr with
        | netError m => simp [ht] at he
        | httpError m =>
          by_cases hs : should_emit_stuck parseTime nowI
              (trackStatus nowStr p.status st).last_activity M
          · simp [ht, hs]
          · simp [ht, hs] at he
        | ok mp =>
          cases hm : messages_actionable mp.messages with
          | some m' =>
            simp [ht, hm] at he
            subst he
            simp [Event.isStuckEv] at hstk
          | none =>
            by_cases hs : should_emit_stuck parseTime nowI
                (trackStatus nowStr p.status st).last_activity M
            · simp [ht, hm, hs]
            · simp [ht, hm, hs] at he
  refine ⟨?_, ?_, ?_⟩
  · intro nowI nowStr inp st hex
    exact ⟨_, key nowI nowStr inp st hex⟩
  · intro nowI nowStr inp st t0s T0 hM hla hT0 hnow hex
    obtain ⟨_, hcond, _⟩ := key nowI nowStr inp st hex
    rcases trackStatus_last_activity_cases nowStr
        (match inp.statusResult with
         | .ok p => p.status
         | _ => none) st with hcase | hcase
    · rw [hcase, hla] at hcond
      by_cases hz : t0s = ""
      · simp [should_emit_stuck, hz] at hcond
      · simp [should_emit_stuck, hz, hT0, decide_eq_true_eq] at hcond
        exact hcond
    · rw [hcase] at hcond
      by_cases hz : nowStr = ""
      · simp [should_emit_stuck, hz] at hcond
      · simp [should_emit_stuck, hz, hnow, decide_eq_true_eq] at hcond
        omega
  · intro now1I now2I now1Str now2Str inp2 st' hM hla h1 h2 hlt e he
    by_contra hstk
    rw [Bool.not_eq_false] at hstk
    obtain ⟨_, hcond, _⟩ := key now2I now2Str inp2 st' ⟨e, he, hstk⟩
    rcases trackStatus_last_activity_cases now2Str
        (match inp2.statusResult with
         | .ok p => p.status
         | _ => none) st' with hcase | hcase
    · rw [hcase, hla] at hcond
      by_cases hz : now1Str = ""
      · simp [should_emit_stuck, hz] at hcond
      · simp [should_emit_stuck, hz, h1, decide_eq_true_eq] at hcond
        omega
    · rw [hcase] at hcond
      by_cases hz : now2Str = ""
      · simp [should_emit_stuck, hz] at hcond
      · simp [should_emit_stuck, hz, h2, decide_eq_true_eq] at hcond
        omega

/-- Witness for C4: with threshold 20 minutes, `last_activity` parsed as
instant 0 and a poll at instant 1300 (> 1200 s later), a `stuck` event is
emitted and the theorem yields the threshold inequality. -/
theorem C4_witness : (0 : Int) < 20 ∧ (20 : Int) * 60 ≤ 1300 - 0 :=
  ⟨by decide,
    (C4_stuck_debounced
        (fun s => if s = "T0" then some 0 else if s = "T1300" then some 1300 else none)
        20 "J").2.1 1300 "T1300" ⟨.ok ⟨some "RUNNING", []⟩, .ok ⟨none, []⟩⟩
      ⟨none, some "RUNNING", some "T0"⟩ "T0" 0 (by decide) rfl (by decide)
      (by decide) (by decide)⟩

/-! ## Claims C1 and C7 -/

/-- First valid event line of the C1 scenario. -/
def EV1 : List Char := "\x7b\"event\": \"question\", \"job_id\": \"J1\"\x7d".toList

/-- Second valid event line of the C1 scenario. -/
def EV2 : List Char := "\x7b\"event\": \"stuck\", \"job_id\": \"J2\"\x7d".toList

/-- Third valid event line of the C1 scenario. -/
def EV3 : List Char := "\x7b\"event\": \"error\", \"job_id\": \"J2\"\x7d".toList

/-- The truncated trailing fragment: an interrupted write cut the line
mid-JSON (no closing value, no newline). -/
def FRAG : List Char :=
  "\x7b\"event\": \"completed\", \"job_id\": \"J3\", \"status\":".toList

/-- The completion later appended by the writer: together with `FRAG` it
forms one valid JSON line. -/
def RESTC : List Char := " \"COMPLETED\"\x7d".toList

/-- A newline. -/
def NL : List Char := ['\n']

/-- The events file at the first Tailer pass: three valid lines and the
truncated trailing fragment. -/
def LOG0 : List Char := EV1 ++ NL ++ EV2 ++ NL ++ EV3 ++ NL ++ FRAG

/-- The events file after the writer completed the interrupted line. -/
def LOG1 : List Char := LOG0 ++ RESTC ++ NL

/-- Counterexample to claim C1 as stated: after the first pass the
persisted offset is the end of file — `FRAG.length` bytes PAST the
position after the last fully read line, so the truncated line does not
"remain unconsumed"; and the later run over the completed log, resuming
from that persisted offset, delivers nothing, even though the completed
line `FRAG ++ RESTC` decodes as JSON — the truncated line's event is never
delivered. -/
theorem C1_counterexample :
    (watchPass jsonDecodes LOG0 0).2 = LOG0.length ∧
      LOG0.length = (EV1 ++ NL ++ EV2 ++ NL ++ EV3 ++ NL).length + FRAG.length ∧
      FRAG ≠ [] ∧
      jsonDecodes (FRAG ++ RESTC) = true ∧
      (watchPass jsonDecodes LOG1 (watchPass jsonDecodes LOG0 0).2).1 = [] := by
  decide

/-- Claim C1 amended: on the truncated-trailing-line scenario, the first
pass delivers exactly the three valid lines, in order, and persists the
end-of-file offset — consuming the truncated fragment as a skipped
malformed line; the restarted pass over the completed log delivers nothing
(the truncated line's event is lost, not deferred); each valid line is
delivered exactly once across the two passes, and the completed line is
never delivered. -/
theorem C1_truncated_line_lost :
    (watchPass jsonDecodes LOG0 0).1 = [EV1, EV2, EV3] ∧
      (watchPass jsonDecodes LOG0 0).2 = LOG0.length ∧
      (watchPass jsonDecodes LOG1 LOG0.length).1 = [] ∧
      (watchPass jsonDecodes LOG1 LOG0.length).2 = LOG1.length ∧
      ((watchPass jsonDecodes LOG0 0).1 ++
          (watchPass jsonDecodes LOG1 LOG0.length).1).count EV1 = 1 ∧
      ((watchPass jsonDecodes LOG0 0).1 ++
          (watchPass jsonDecodes LOG1 LOG0.length).1).count EV2 = 1 ∧
      ((watchPass jsonDecodes LOG0 0).1 ++
          (watchPass jsonDecodes LOG1 LOG0.length).1).count EV3 = 1 ∧
      (FRAG ++ RESTC) ∉
        ((watchPass jsonDecodes LOG0 0).1 ++
          (watchPass jsonDecodes LOG1 LOG0.length).1) := by
  decide

/-- Claim C7: the Tailer's offset is monotonically non-decreasing — a read
pass never moves it backwards, a whole run of passes never moves it
backwards, and a restart resumes exactly at the persisted offset; and
resuming at the offset persisted at a file of content `c` delivers, on the
grown file `c ++ d`, exactly what a fresh pass over `d` alone would: no
line lying before the persisted offset is ever re-delivered. -/
theorem C7_offset_monotone :
    (∀ (jsonOk : List Char → Bool) (content : List Char) (o : Nat),
      o ≤ (watchPass jsonOk content o).2) ∧
    (∀ (jsonOk : List Char → Bool) (cs : List (List Char)) (o : Nat),
      o ≤ watchRunOffset jsonOk cs o) ∧
    (∀ o : Nat, load_state_offset (some o) = o) ∧
    (∀ (jsonOk : List Char → Bool) (c d : List Char),
      (watchPass jsonOk (c ++ d) c.length).1 = (watchPass jsonOk d 0).1) := by
  refine ⟨?_, ?_, fun o => rfl, ?_⟩
  · intro jsonOk content o
    exact Nat.le_max_left ..
  · intro jsonOk cs
    induction cs with
    | nil => intro o; exact le_rfl
    | cons c cs ih =>
      intro o
      exact le_trans (Nat.le_max_left o c.length) (ih _)
  · intro jsonOk c d
    simp [watchPass, List.drop_left]

/-! ## Claim C9 -/

/-- A `last_activity` under which `should_emit_stuck` can never fire:
unset (`None`), empty, or not parseable by the clock parser. -/
def deadActivity (parseTime : String → Option Int) : Option String → Prop
  | none => True
  | some s => s = "" ∨ parseTime s = none

/-- A fetched status that the tracking step ignores when the stored
`last_status` is `ls0`: absent, empty, or equal to `ls0`. -/
def quietStatus (ls0 : Option String) : Option String → Prop
  | none => True
  | some s => s = "" ∨ some s = ls0

/-- Oracle answers for one job in one cycle under which the Observer sees
no activity: a successful status fetch reports no (effective) status
change, and a successful message fetch contains no question message. -/
def quietInput (ls0 : Option String) (inp : JobInput) : Prop :=
  (match inp.statusResult with
   | .ok p => quietStatus ls0 p.status
   | _ => True) ∧
  (match inp.messagesResult with
   | .ok mp => messages_actionable mp.messages = none
   | _ => True)

/-- The `last_activity` stored for job `j` (of a fresh default entry when
`j` is untracked). -/
def activityOf (m : StateMap) (j : String) : Option String :=
  (getOrDefault m j).last_activity

/-- The `last_status` stored for job `j` (of a fresh default entry when `j`
is untracked). -/
def lastStatusOf (m : StateMap) (j : String) : Option String :=
  (getOrDefault m j).last_status

/-- `should_emit_stuck` never fires on a dead `last_activity`. -/
theorem should_emit_stuck_dead (parseTime : String → Option Int) (nowI : Int)
    (la : Option String) (M : Int) (h : deadActivity parseTime la) :
    should_emit_stuck parseTime nowI la M = false := by
  cases la with
  | none => rfl
  | some s =>
    rcases h with h | h
    · simp [should_emit_stuck, h]
    · by_cases hz : s = "" <;> simp [should_emit_stuck, hz, h]

/-- The tracking step is the identity on a quiet fetched status. -/
theorem trackStatus_quiet (nowStr : String) (status : Option String)
    (st : JobState) (h : quietStatus st.last_status status) :
    trackStatus nowStr status st = st := by
  cases status with
  | none => rfl
  | some s =>
    rcases h with h | h
    · simp [trackStatus, h]
    · simp [trackStatus, ← h]

/-- A quiet cycle for a job with a dead stuck timer emits no `stuck` event
for it and leaves its `last_activity` and `last_status` unchanged. -/
theorem processJob_quiet (parseTime : String → Option Int) (nowI : Int)
    (nowStr : String) (M : Int) (jid : String) (inp : JobInput) (st : JobState)
    (hdead : deadActivity parseTime st.last_activity)
    (hq : quietInput st.last_status inp) :
    (∀ e ∈ (processJob parseTime nowI nowStr M jid inp st).eventsOf,
      e.isStuckEv = false) ∧
    (processJob parseTime nowI nowStr M jid inp st).stateOf.last_activity =
      st.last_activity ∧
    (processJob parseTime nowI nowStr M jid inp st).stateOf.last_status =
      st.last_status := by
  obtain ⟨hq1, hq2⟩ := hq
  rw [processJob_events, processJob_last_activity, processJob_last_status]
  obtain ⟨sr, mr⟩ := inp
  cases sr with
  | netError m => exact ⟨by simp, rfl, rfl⟩
  | httpError m => exact ⟨by simp [Event.isStuckEv], rfl, rfl⟩
  | ok p =>
    have htrack : trackStatus nowStr p.status st = st := trackStatus_quiet _ _ _ hq1
    by_cases ht : isTerminalStatus p.status
    · cases mr <;> simp [ht, htrack, Event.isStuckEv]
    · cases mr with
      | netError m => simp [ht, htrack]
      | httpError m =>
        have hs : should_emit_stuck parseTime nowI st.last_activity M = false :=
          should_emit_stuck_dead _ _ _ _ hdead
        simp [ht, htrack, hs]
      | ok mp =>
        have hs : should_emit_stuck parseTime nowI st.last_activity M = false :=
          should_emit_stuck_dead _ _ _ _ hdead
        simp [ht, htrack, hs, hq2]

/-- Every event appended while processing a job carries that job's id. -/
theorem processJob_events_jobOf (parseTime : String → Option Int) (nowI : Int)
    (nowStr : String) (M : Int) (jid : String) (inp : JobInput) (st : JobState) :
    ∀ e ∈ (processJob parseTime nowI nowStr M jid inp st).eventsOf,
      e.jobOf = some jid := by
  rw [processJob_events]
  obtain ⟨sr, mr⟩ := inp
  cases sr with
  | netError m => simp
  | httpError m => simp [Event.jobOf]
  | ok p =>
    by_cases ht : isTerminalStatus p.status
    · cases mr <;> simp [ht, Event.jobOf]
    · cases mr with
      | netError m => simp [ht]
      | httpError m =>
        intro e he
        by_cases hs : should_emit_stuck parseTime nowI
            (trackStatus nowStr p.status st).last_activity M <;>
          simp [ht, hs] at he
        subst he; rfl
      | ok mp =>
        intro e he
        cases hm : messages_actionable mp.messages with
        | some m' =>
          simp [ht, hm] at he
          subst he; rfl
        | none =>
          by_cases hs : should_emit_stuck parseTime nowI
              (trackStatus nowStr p.status st).last_activity M <;>
            simp [ht, hm, hs] at he
          subst he; rfl

/-- Looking up a key other than the one written is unaffected. -/
theorem lookupState_setState_ne (m : StateMap) (k j : String) (v : JobState)
    (h : k ≠ j) : lookupState (setState m k v) j = lookupState m j := by
  induction m with
  | nil => rfl
  | cons hd tl ih =>
    obtain ⟨k', v'⟩ := hd
    by_cases hk : k' = k
    · subst hk
      have hkj : ¬ k' = j := h
      simp [setState, lookupState, hkj]
    · simp [setState, hk, lookupState, ih]

/-- A key found in `m` is found unchanged in `m ++ l`. -/
theorem lookupState_append_left (m l : StateMap) (j : String) (v : JobState)
    (h : lookupState m j = some v) : lookupState (m ++ l) j = some v := by
  induction m with
  | nil => simp [lookupState] at h
  | cons hd tl ih =>
    obtain ⟨k', v'⟩ := hd
    by_cases hk : k' = j
    · subst hk
      simp [lookupState] at h ⊢
      exact h
    · simp only [List.cons_append, lookupState, if_neg hk] at h ⊢
      exact ih h

/-- Looking up a key other than the one `setdefault`-ed is unaffected. -/
theorem lookupState_ensureEntry_ne (m : StateMap) (k j : String) (h : k ≠ j) :
    lookupState (ensureEntry m k) j = lookupState m j := by
  unfold ensureEntry
  cases hl : lookupState m k with
  | some v => rfl
  | none =>
    cases hlj : lookupState m j with
    | some v => rw [lookupState_append_left m _ j v hlj]
    | none =>
      rw [lookupState_append_right m _ j hlj]
      simp [lookupState, h]

/-- Writing a present key makes lookup return the written value. -/
theorem lookupState_setState_self (m : StateMap) (k : String) (v w : JobState)
    (h : lookupState m k = some w) :
    lookupState (setState m k v) k = some v := by
  induction m with
  | nil => simp [lookupState] at h
  | cons hd tl ih
  =>
    obtain ⟨k', v'⟩ := hd
    by_cases hk : k' = k
    · subst hk
      simp [setState, lookupState]
    · simp only [lookupState, if_neg hk] at h
      simp [setState, hk, lookupState, ih h]

/-- A whole `monitor_once` sweep in which every entry for job `j` is quiet
and `j`'s stuck timer is dead emits no `stuck` event for `j` and leaves
`j`'s `last_activity` and `last_status` unchanged. -/
theorem monitorOnce_quiet (parseTime : String → Option Int) (nowI : Int)
    (nowStr : String) (M : Int) (j : String) :
    ∀ (jobs : List CycleJobEntry) (state : StateMap),
      deadActivity parseTime (activityOf state j) →
      (∀ e ∈ jobs, e.job_id = some j → quietInput (lastStatusOf state j) e.inp) →
      (∀ ev ∈ (monitorOnce parseTime nowI nowStr M jobs state).1,
        ev.jobOf = some j → ev.isStuckEv = false) ∧
      activityOf (monitorOnce parseTime nowI nowStr M jobs state).2.1 j =
        activityOf state j ∧
      lastStatusOf (monitorOnce parseTime nowI nowStr M jobs state).2.1 j =
        lastStatusOf state j := by
  intro jobs
  induction jobs with
  | nil =>
    intro state hdead hq
    exact ⟨fun ev hev => absurd hev (List.not_mem_nil ev), rfl, rfl⟩
  | cons hd tl ih =>
    intro state hdead hq
    have hqtl : ∀ e ∈ tl, e.job_id = some j →
        quietInput (lastStatusOf state j) e.inp :=
      fun e he hje => hq e (List.mem_cons_of_mem hd he) hje
    cases hhd : hd.job_id with
    | none =>
      simp only [monitorOnce, hhd]
      exact ih state hdead hqtl
    | some jid =>
      by_cases hjid : jid = ""
      · simp only [monitorOnce, hhd, if_pos hjid]
        exact ih state hdead hqtl
      · simp only [monitorOnce, hhd, if_neg hjid]
        by_cases hjj : jid = j
        · subst hjj
          have hqhd : quietInput (lastStatusOf state jid) hd.inp :=
            hq hd (List.mem_cons_self hd tl) hhd
          have hquiet := processJob_quiet parseTime nowI nowStr M jid hd.inp
            (getOrDefault state jid) hdead hqhd
          cases hout : processJob parseTime nowI nowStr M jid hd.inp
              (getOrDefault state jid) with
          | done evs st' =>
            simp only [hout]
            have hlook : lookupState (setState (ensureEntry state jid) jid st')
                jid = some st' :=
              lookupState_setState_self _ _ _ _ (lookupState_ensureEntry state jid)
            have hst'a : st'.last_activity = activityOf state jid := by
              have h2 := hquiet.2.1
              rw [hout, stateOf_done] at h2
              exact h2
            have hst's : st'.last_status = lastStatusOf state jid := by
              have h2 := hquiet.2.2
              rw [hout, stateOf_done] at h2
              exact h2
            have hact1 : activityOf (setState (ensureEntry state jid) jid st') jid
                = activityOf state jid := by
              simp only [activityOf, getOrDefault, hlook, Option.getD_some]
              simpa only [activityOf] using hst'a
            have hls1 : lastStatusOf (setState (ensureEntry state jid) jid st') jid
                = lastStatusOf state jid := by
              simp only [lastStatusOf, getOrDefault, hlook, Option.getD_some]
              simpa only [lastStatusOf] using hst's
            have ihres := ih (setState (ensureEntry state jid) jid st')
              (by rw [hact1]; exact hdead)
              (fun e he hje => by rw [hls1]; exact hqtl e he hje)
            refine ⟨?_, ?_, ?_⟩
            · intro ev hev hjob
              rcases List.mem_append.mp hev with hin | hin
              · have h1 := hquiet.1
                rw [hout, eventsOf_done] at h1
                exact h1 ev hin
              · exact ihres.1 ev hin hjob
            · rw [ihres.2.1, hact1]
            · rw [ihres.2.2, hls1]
          | aborted evs st' msg =>
            simp only [hout]
            have hlook : lookupState (setState (ensureEntry state jid) jid st')
                jid = some st' :=
              lookupState_setState_self _ _ _ _ (lookupState_ensureEntry state jid)
            have hst'a : st'.last_activity = activityOf state jid := by
              have h2 := hquiet.2.1
              rw [hout, stateOf_aborted] at h2
              exact h2
            have hst's : st'.last_status = lastStatusOf state jid := by
              have h2 := hquiet.2.2
              rw [hout, stateOf_aborted] at h2
              exact h2
            refine ⟨?_, ?_, ?_⟩
            · intro ev hev hjob
              have h1 := hquiet.1
              rw [hout, eventsOf_aborted] at h1
              exact h1 ev hev
            · simp only [activityOf, getOrDefault, hlook, Option.getD_some]
              simpa only [activityOf] using hst'a
            · simp only [lastStatusOf, getOrDefault, hlook, Option.getD_some]
              simpa only [lastStatusOf] using hst's
        · cases hout : processJob parseTime nowI nowStr M jid hd.inp
              (getOrDefault state jid) with
          | done evs st' =>
            simp only [hout]
            have hframe : lookupState (setState (ensureEntry state jid) jid st') j
                = lookupState state j := by
              rw [lookupState_setState_ne _ _ _ _ hjj,
                lookupState_ensureEntry_ne _ _ _ hjj]
            have hact1 : activityOf (setState (ensureEntry state jid) jid st') j
                = activityOf state j := by
              simp only [activityOf, getOrDefault, hframe]
            have hls1 : lastStatusOf (setState (ensureEntry state jid) jid st') j
                = lastStatusOf state j := by
              simp only [lastStatusOf, getOrDefault, hframe]
            have ihres := ih (setState (ensureEntry state jid) jid st')
              (by rw [hact1]; exact hdead)
              (fun e he hje => by rw [hls1]; exact hqtl e he hje)
            refine ⟨?_, ?_, ?_⟩
            · intro ev hev hjob
              rcases List.mem_append.mp hev with hin | hin
              · have hid := processJob_events_jobOf parseTime nowI nowStr M jid
                  hd.inp (getOrDefault state jid) ev
                  (by rw [hout, eventsOf_done]; exact hin)
                exact absurd (Option.some.inj (hid.symm.trans hjob)) hjj
              · exact ihres.1 ev hin hjob
            · rw [ihres.2.1, hact1]
            · rw [ihres.2.2, hls1]
          | aborted evs st' msg =>
            simp only [hout]
            have hframe : lookupState (setState (ensureEntry state jid) jid st') j
                = lookupState state j := by
              rw [lookupState_setState_ne _ _ _ _ hjj,
                lookupState_ensureEntry_ne _ _ _ hjj]
            refine ⟨?_, ?_, ?_⟩
            · intro ev hev hjob
              have hid := processJob_events_jobOf parseTime nowI nowStr M jid
                hd.inp (getOrDefault state jid) ev
                (by rw [hout, eventsOf_aborted]; exact hev)
              exact absurd (Option.some.inj (hid.symm.trans hjob)) hjj
            · simp only [activityOf, getOrDefault, hframe]
            · simp only [lastStatusOf, getOrDefault, hframe]

/-- `runCycle` version of `monitorOnce_quiet`: the extra job-less
`monitorError` event appended on an abort carries no `job_id` and is
therefore never a `stuck` event for `j`. -/
theorem runCycle_quiet (parseTime : String → Option Int) (nowI : Int)
    (nowStr : String) (M : Int) (j : String) (jobs : List CycleJobEntry)
    (state : StateMap)
    (hdead : deadActivity parseTime (activityOf state j))
    (hq : ∀ e ∈ jobs, e.job_id = some j → quietInput (lastStatusOf state j) e.inp) :
    (∀ ev ∈ (runCycle parseTime nowI nowStr M jobs state).1,
      ev.jobOf = some j → ev.isStuckEv = false) ∧
    activityOf (runCycle parseTime nowI nowStr M jobs state).2 j =
      activityOf state j ∧
    lastStatusOf (runCycle parseTime nowI nowStr M jobs state).2 j =
      lastStatusOf state j := by
  have h := monitorOnce_quiet parseTime nowI nowStr M j jobs state hdead hq
  unfold runCycle
  cases hmo : monitorOnce parseTime nowI nowStr M jobs state with
  | mk evs rest =>
    obtain ⟨st', ab⟩ := rest
    rw [hmo] at h
    cases ab with
    | none => exact h
    | some msg =>
      refine ⟨?_, h.2.1, h.2.2⟩
      intro ev hev hjob
      rcases List.mem_append.mp hev with hin | hin
      · exact h.1 ev hin hjob
      · rw [List.mem_singleton] at hin
        subst hin
        simp [Event.jobOf] at hjob

/-- Claim C9: a job whose stored `last_activity` is unset, empty, or not a
parseable timestamp — and for which no cycle ever observes an effective
status change or a question message — never has a `stuck` event emitted for
it, over any number of monitoring cycles. -/
theorem C9_no_stuck_without_timer (parseTime : String → Option Int) (M : Int)
    (j : String) :
    ∀ (cis : List CycleInput) (st0 : StateMap),
      deadActivity parseTime (activityOf st0 j) →
      (∀ ci ∈ cis, ∀ e ∈ ci.jobs, e.job_id = some j →
        quietInput (lastStatusOf st0 j) e.inp) →
      ∀ ev ∈ (monitorTrace parseTime M cis st0).1, ev.jobOf = some j →
        ev.isStuckEv = false := by
  intro cis
  induction cis with
  | nil =>
    intro st0 hdead hq ev hev
    exact absurd hev (List.not_mem_nil ev)
  | cons ci cis ih =>
    intro st0 hdead hq ev hev hjob
    have h1 := runCycle_quiet parseTime ci.nowI ci.nowStr M j ci.jobs st0 hdead
      (hq ci (List.mem_cons_self ci cis))
    rcases List.mem_append.mp hev with hin | hin
    · exact h1.1 ev hin hjob
    · exact ih (runCycle parseTime ci.nowI ci.nowStr M ci.jobs st0).2
        (by rw [h1.2.1]; exact hdead)
        (fun ci' hci' e he hje => by
          rw [h1.2.2]
          exact hq ci' (List.mem_cons_of_mem ci hci') e he hje)
        ev hin hjob

/-- Witness for C9: a single-cycle trace for job `J1` — stored
`last_activity` unset, status fetch failing with an HTTP error — emits its
(non-stuck) `error` event, and the theorem applies to it. -/
theorem C9_witness :
    (Event.fetchError "J1" "T" "boom").isStuckEv = false :=
  C9_no_stuck_without_timer (fun _ => none) 20 "J1"
    [⟨0, "T", [⟨some "J1", ⟨.httpError "boom", .ok ⟨none, []⟩⟩⟩]⟩]
    [] trivial
    (by
      intro ci hci e he hje
      rw [List.mem_singleton] at hci
      subst hci
      rw [List.mem_singleton] at he
      subst he
      exact ⟨trivial, rfl⟩)
    (Event.fetchError "J1" "T" "boom") (by decide) rfl
